import Mathlib

/-!
Verification of the untrusted-script execution core of the mow-bot simulator.

The development shallowly embeds the parts of the TypeScript source that the
specification talks about:

* the coverage planner (`getPolygonBounds`, `intersectLine`, `planCoverage`
  from `src/unnamed/part_001`, injected into `api.nav.planCoverage` by
  `BrainExecutor.init`);
* the script host (`BrainExecutor.compile` / `BrainExecutor.step` from
  `src/unnamed/part_001`);
* the per-tick execution supervisor of `src/components/Robot.tsx`
  (`useFrame` lines 212-321): capability construction, actuator intent
  staging, wall-clock budget classification, fail-safe handling, the
  RUNNING to SAFE safety timer, and the store fields it mutates
  (`src/store.ts`).

Numbers are modelled as rationals; every concrete input appearing in a
theorem below is exactly representable in binary floating point, and the
arithmetic the source performs on those inputs is exact, so the rational
model agrees with the JavaScript evaluation on them.
-/

/-- A planar point `{x, z}` as used by the mowing-zone polygon and the
coverage planner. -/
structure Point2 where
  x : ℚ
  z : ℚ
deriving DecidableEq, Repr

/-- Axis-aligned bounding box of a polygon, `getPolygonBounds` in
`src/unnamed/part_001` lines 54-63. The source folds min/max starting from
plus/minus Infinity; for the nonempty polygons that reach this function
(the sole caller guards `length >= 3`) that fold coincides with folding
from the first vertex, which is how we express it over `ℚ`. -/
structure PolyBounds where
  minX : ℚ
  maxX : ℚ
  minZ : ℚ
  maxZ : ℚ
deriving DecidableEq, Repr

def getPolygonBounds : List Point2 → PolyBounds
  | [] => ⟨0, 0, 0, 0⟩
  | p :: ps =>
    ps.foldl
      (fun b q =>
        ⟨min b.minX q.x, max b.maxX q.x, min b.minZ q.z, max b.maxZ q.z⟩)
      ⟨p.x, p.x, p.z, p.z⟩

/-- Function `intersectLine` from `src/unnamed/part_001` lines 65-70: x-coordinate of
the intersection of the horizontal scan line `z = zLine` with the segment
`p1 p2`; `none` when both endpoints are strictly on one side or when the
edge is parallel to the scan line. -/
def intersectLine (zLine : ℚ) (p1 p2 : Point2) : Option ℚ :=
  if (p1.z > zLine ∧ p2.z > zLine) ∨ (p1.z < zLine ∧ p2.z < zLine) then none
  else if p1.z = p2.z then none
  else some (p1.x + ((zLine - p1.z) / (p2.z - p1.z)) * (p2.x - p1.x))

/-- Ascending insertion of a rational into a sorted list. -/
def insertAsc (x : ℚ) : List ℚ → List ℚ
  | [] => [x]
  | y :: ys => if x ≤ y then x :: y :: ys else y :: insertAsc x ys

/-- Ascending sort, modelling the JavaScript
`intersections.sort((a, b) => a - b)`. Sorting plain numbers ascending is
extensionally unique, so insertion sort and the engine sort agree. -/
def sortAsc (l : List ℚ) : List ℚ := l.foldr insertAsc []

/-- The edge list of a polygon: `(poly[i], poly[(i+1) % n])` for each `i`,
as enumerated by the inner loop of `planCoverage`. -/
def polygonEdges (poly : List Point2) : List (Point2 × Point2) :=
  poly.zip (poly.rotate 1)

/-- Number of iterations of the scan loop
`for (let z = minZ + w/2; z < maxZ; z += w)`: the number of naturals `k`
with `minZ + w/2 + k*w < maxZ`. For `w <= 0` the JavaScript loop would not
terminate; the planner contract requires a positive tool width and no claim
exercises that case, so the model returns no scan lines there. -/
def scanLineCount (minZ maxZ w : ℚ) : ℕ :=
  if 0 < w then (⌈(maxZ - (minZ + w / 2)) / w⌉).toNat else 0

/-- The scan-line heights `z = minZ + w/2, minZ + 3w/2, …` visited by the
loop, in order. -/
def scanLines (minZ maxZ w : ℚ) : List ℚ :=
  (List.range (scanLineCount minZ maxZ w)).map (fun k => minZ + w / 2 + k * w)

/-- Consecutive pairing `(a[0],a[1]), (a[2],a[3]), …` of the sorted
intersection list; a trailing unpaired element is discarded
(`if (i + 1 >= intersections.length) break`). -/
def pairUp : List ℚ → List (ℚ × ℚ)
  | x1 :: x2 :: rest => (x1, x2) :: pairUp rest
  | _ => []

/-- Waypoints contributed by one scan line at height `z`: the sorted
pairwise intersection spans, each span emitted left-to-right when
`movingRight` and right-to-left otherwise. -/
def lineWaypoints (poly : List Point2) (z : ℚ) (movingRight : Bool) :
    List Point2 :=
  let inters :=
    sortAsc ((polygonEdges poly).filterMap (fun e => intersectLine z e.1 e.2))
  (pairUp inters).flatMap (fun s =>
    if movingRight then [⟨s.1, z⟩, ⟨s.2, z⟩] else [⟨s.2, z⟩, ⟨s.1, z⟩])

/-- The coverage planner injected into `api.nav.planCoverage` by
`BrainExecutor.init`, `src/unnamed/part_001` lines 99-137: boustrophedon
scan along the z axis, alternating direction on successive scan lines
(`movingRight` starts `true` and toggles once per line, so line `k` moves
right exactly when `k` is even). -/
def planCoverage (poly : List Point2) (width : ℚ) : List Point2 :=
  if poly.length < 3 then []
  else
    let b := getPolygonBounds poly
    ((scanLines b.minZ b.maxZ width).enum.flatMap
      (fun zk => lineWaypoints poly zk.2 (zk.1 % 2 == 0)))

/-- The planner as called from script code: the source guard
`if (!polygon || polygon.length < 3) return []` also accepts a null or
undefined polygon argument, modelled by `Option`. -/
def planCoverageJs (polygon : Option (List Point2)) (width : ℚ) :
    List Point2 :=
  match polygon with
  | none => []
  | some poly => planCoverage poly width

unseal Rat.add Rat.mul Rat.inv Rat.sub

/-- C6: `planCoverage` on the axis-aligned 10 by 10 square with tool width 2
produces exactly the five scan lines z = 1, 3, 5, 7, 9 (the first offset by
half the tool width from the bounding-box edge), one span per line with
endpoints x = 0 and x = 10, and the traversal direction alternates between
successive lines. The full output list is computed explicitly. -/
theorem c6_square_coverage :
    planCoverage [⟨0, 0⟩, ⟨10, 0⟩, ⟨10, 10⟩, ⟨0, 10⟩] 2 =
      [⟨0, 1⟩, ⟨10, 1⟩, ⟨10, 3⟩, ⟨0, 3⟩, ⟨0, 5⟩, ⟨10, 5⟩,
       ⟨10, 7⟩, ⟨0, 7⟩, ⟨0, 9⟩, ⟨10, 9⟩] := by
  decide

/-- C7: a missing (null) polygon or one with fewer than three vertices
yields the empty waypoint list, for every tool width. -/
theorem c7_degenerate_polygon (polygon : Option (List Point2)) (width : ℚ)
    (h : (polygon.getD []).length < 3) :
    planCoverageJs polygon width = [] := by
  cases polygon with
  | none => rfl
  | some poly =>
    simp only [Option.getD] at h
    simp [planCoverageJs, planCoverage, h]

/-- Witness for C7 at a concrete two-vertex polygon. -/
theorem c7_degenerate_polygon_witness :
    ((some [(⟨0, 0⟩ : Point2), ⟨1, 1⟩]).getD []).length < 3 ∧
      planCoverageJs (some [⟨0, 0⟩, ⟨1, 1⟩]) 2 = [] :=
  ⟨by decide, c7_degenerate_polygon (some [⟨0, 0⟩, ⟨1, 1⟩]) 2 (by decide)⟩

/-! ## Script host: `BrainExecutor` (src/unnamed/part_001 lines 72-152) -/

/-- A JavaScript member value as inspected by `compile`: either a callable
function (identified by an opaque label) or a non-callable value. -/
inductive MemberVal
  | func (label : String)
  | notFunc
deriving DecidableEq, Repr

/-- What evaluating a script source does. `new Function(code)` throwing on a
syntax error and `factory()` throwing during evaluation land in the same
catch block, so both are `throws` (carrying `e.toString()`); `nullish` is a
falsy result value; `objRes` is a returned object carrying its `step` and
`init` members (a missing member is `none`). -/
inductive EvalOutcome
  | throws (msg : String)
  | nullish
  | objRes (stepMem : Option MemberVal) (initMem : Option MemberVal)
deriving DecidableEq, Repr

/-- The installed init slot: a successful compile stores
`result.init || (() => {})`, i.e. the default no-op when the member is
absent or falsy, and the raw member value (callable or not) otherwise. -/
inductive InitSlot
  | noop
  | mem (m : MemberVal)
deriving DecidableEq, Repr

/-- The mutable fields of `BrainExecutor` (src/unnamed/part_001 lines
73-75): `initFn`, `stepFn` and `api`, all null before the first successful
compile respectively the first `init` call. The installed step function and
the api object are identified by opaque labels. -/
structure ExecutorState where
  initFn : Option InitSlot
  stepFn : Option String
  api : Option String
deriving DecidableEq, Repr

/-- Result record of `compile`: `{ success: boolean; error?: string }`. -/
structure CompileResult where
  success : Bool
  error : Option String
deriving DecidableEq, Repr

/-- The fixed diagnostic for a missing or non-callable `step` member
(src/unnamed/part_001 line 85). -/
def stepFnErrorMsg : String :=
  "Code must return an object with a \x27step\x27 function."

/-- Method `BrainExecutor.compile` (src/unnamed/part_001 lines 77-94): evaluate
the source; on a throw return the raw diagnostic; on a falsy result or a
result whose `step` member is not callable return the fixed diagnostic; on
success install `stepFn` and `initFn` (defaulting `init` to a no-op). Only
the success branch writes the executor fields. -/
def BrainExecutor.compile (st : ExecutorState) (code : EvalOutcome) :
    ExecutorState × CompileResult :=
  match code with
  | .throws msg => (st, ⟨false, some msg⟩)
  | .nullish => (st, ⟨false, some stepFnErrorMsg⟩)
  | .objRes stepMem initMem =>
    match stepMem with
    | some (.func f) =>
      ({ st with
          initFn := some (match initMem with | some m => .mem m | none => .noop),
          stepFn := some f },
        ⟨true, none⟩)
    | _ => (st, ⟨false, some stepFnErrorMsg⟩)

/-- Method `BrainExecutor.step` (src/unnamed/part_001 lines 148-152): when both
`stepFn` and `api` are installed it performs exactly one invocation
`stepFn(api, dt)`, returned here as a descriptor; otherwise it performs no
invocation at all and returns normally (`none`). -/
def BrainExecutor.step (st : ExecutorState) (dt : ℚ) :
    Option (String × String × ℚ) :=
  match st.stepFn, st.api with
  | some f, some a => some (f, a, dt)
  | _, _ => none

/-- C4: a source whose evaluation throws (syntax or runtime) fails to
compile with the raw diagnostic and installs nothing; a falsy result or a
result without a callable `step` member fails with the fixed distinct
message `stepFnErrorMsg` and installs nothing. -/
theorem c4_compile_contract :
    (∀ st msg, BrainExecutor.compile st (.throws msg) = (st, ⟨false, some msg⟩))
    ∧ (∀ st, BrainExecutor.compile st .nullish =
        (st, ⟨false, some stepFnErrorMsg⟩))
    ∧ (∀ st initMem, BrainExecutor.compile st (.objRes none initMem) =
        (st, ⟨false, some stepFnErrorMsg⟩))
    ∧ (∀ st initMem,
        BrainExecutor.compile st (.objRes (some .notFunc) initMem) =
          (st, ⟨false, some stepFnErrorMsg⟩)) :=
  ⟨fun _ _ => rfl, fun _ => rfl, fun _ _ => rfl, fun _ _ => rfl⟩

/-- C5: every failed compile leaves the executor fields untouched, so the
previously installed brain (or none) keeps running. -/
theorem c5_compile_atomic (st : ExecutorState) (code : EvalOutcome)
    (h : (BrainExecutor.compile st code).2.success = false) :
    (BrainExecutor.compile st code).1 = st := by
  cases code with
  | throws msg => rfl
  | nullish => rfl
  | objRes stepMem initMem =>
    rcases stepMem with _ | m
    · rfl
    · cases m with
      | func f => simp [BrainExecutor.compile] at h
      | notFunc => rfl

/-- Witness for C5: a failing compile over an executor that already holds a
brain keeps that brain installed. -/
theorem c5_compile_atomic_witness :
    (BrainExecutor.compile ⟨some .noop, some "oldStep", some "apiA"⟩
        (.throws "SyntaxError: Unexpected token")).2.success = false
    ∧ (BrainExecutor.compile ⟨some .noop, some "oldStep", some "apiA"⟩
        (.throws "SyntaxError: Unexpected token")).1 =
        ⟨some .noop, some "oldStep", some "apiA"⟩ :=
  ⟨rfl, c5_compile_atomic _ _ rfl⟩

/-- C10: `BrainExecutor.step` is a total no-op — no script invocation, no
exception, a plain return — whenever `stepFn` or `api` is null. -/
theorem c10_step_noop (st : ExecutorState) (dt : ℚ)
    (h : st.stepFn = none ∨ st.api = none) :
    BrainExecutor.step st dt = none := by
  rcases st with ⟨i, sf, a⟩
  rcases h with h | h
  · simp only at h; subst h; rfl
  · simp only at h; subst h; cases sf <;> rfl

/-- Witness for C10 on the freshly constructed executor. -/
theorem c10_step_noop_witness :
    ((⟨none, none, none⟩ : ExecutorState).stepFn = none
      ∨ (⟨none, none, none⟩ : ExecutorState).api = none)
    ∧ BrainExecutor.step ⟨none, none, none⟩ (1 / 60) = none :=
  ⟨Or.inl rfl, c10_step_noop _ _ (Or.inl rfl)⟩

/-! ## Execution supervisor (src/components/Robot.tsx `useFrame`, lines
212-321) and the store slice it mutates (src/store.ts). -/

/-- Values of `executionStatus` (src/store.ts line 57). -/
inductive ExecStatus
  | IDLE
  | RUNNING
  | ERROR
  | SAFE
deriving DecidableEq, Repr

/-- Revision outcome tags (src/store.ts line 10). -/
inductive RevStatus
  | SAFE
  | ERROR
  | UNKNOWN
deriving DecidableEq, Repr

/-- A revision ledger entry (src/store.ts lines 6-12); the optional note is
never written by the code and is omitted. -/
structure Revision where
  id : String
  timestamp : ℚ
  code : String
  status : RevStatus
deriving DecidableEq, Repr

/-- Store action `addRevision` (src/store.ts line 242): prepend the new
entry and keep the 50 most recent. -/
def addRevision (revs : List Revision) (rev : Revision) : List Revision :=
  (rev :: revs).take 50

/-- The state the supervisor reads and writes across a tick: the store
fields `executionStatus`, `errorLog`, `userCode`, `revisions`
(src/store.ts) plus the frame-local `safetyTimerRef` (Robot.tsx line 61). -/
structure TickState where
  executionStatus : ExecStatus
  errorLog : Option String
  userCode : String
  revisions : List Revision
  safetyTimer : ℚ
deriving DecidableEq, Repr

/-- Store action `revertToSafe` (src/store.ts lines 243-248): restore the
most recent revision tagged SAFE, if any. -/
def revertToSafe (s : TickState) : TickState :=
  match s.revisions.find? (fun r => r.status == RevStatus.SAFE) with
  | some safe =>
    { s with userCode := safe.code, executionStatus := .IDLE, errorLog := none }
  | none => s

/-- Handler `handleRun` (src/components/BrainLab.tsx lines 32-50): deploy the edited
code — set it as the user code, force status RUNNING, clear the error log,
and append a revision tagged UNKNOWN. -/
def handleRun (s : TickState) (tempCode : String) (idv : String) (ts : ℚ) :
    TickState :=
  { s with
      userCode := tempCode,
      executionStatus := .RUNNING,
      errorLog := none,
      revisions := addRevision s.revisions ⟨idv, ts, tempCode, .UNKNOWN⟩ }

/-- The actuator intent buffer `inputs : VehicleInputs` (Robot.tsx line
217), reset to `{ throttle: 0, steer: 0, brake: 0 }` at the top of every
frame and handed to `physics.update` at line 321. -/
structure VehicleInputs where
  throttle : ℚ
  steer : ℚ
  brake : ℚ
deriving DecidableEq, Repr

/-- Helper `MathUtils.clamp(value, lo, hi)`. -/
def clamp (v lo hi : ℚ) : ℚ := max lo (min hi v)

/-- An actuator capability call the script can make during `step`:
`api.robot.setSpeed` / `setSteer` / `stop` (Robot.tsx lines 230-237). -/
inductive RobotCall
  | setSpeed (v : ℚ)
  | setSteer (r : ℚ)
  | stop
deriving DecidableEq, Repr

/-- Effect of one actuator call on the intent buffer, given the current
forward speed `physics.velocity.dot(forward)` read by `setSpeed`. -/
def applyCall (currentSpeed : ℚ) (inp : VehicleInputs) :
    RobotCall → VehicleInputs
  | .setSpeed v =>
    let err := v - currentSpeed
    let inp1 := { inp with throttle := clamp (err * (1 / 2)) (-1) 1 }
    if |v| < 1 / 10 ∧ |currentSpeed| < 1 / 2 then { inp1 with brake := 1 }
    else inp1
  | .setSteer r => { inp with steer := clamp (-r) (-1) 1 }
  | .stop => { inp with throttle := 0, brake := 1 }

/-- One tick of the deployed script as the supervisor observes it: the
actuator calls it staged in order (up to a possible exception), whether it
threw, and the wall-clock duration `performance.now() - t0` in
milliseconds measured after a normal return. -/
structure StepRun where
  calls : List RobotCall
  threw : Option String
  elapsedMs : ℚ
deriving DecidableEq, Repr

/-- The per-tick CPU budget in milliseconds (Robot.tsx line 290). -/
def cpuBudgetMs : ℚ := 5

/-- Message of the synthetic budget fault (Robot.tsx line 290). -/
def budgetErrorMsg : String := "CPU Budget Exceeded (5ms)"

/-- Fallback `e.message || "Runtime Error"` (Robot.tsx line 296). -/
def errorMessage (msg : String) : String :=
  if msg = "" then "Runtime Error" else msg

/-- The try/catch around `executor.step` (Robot.tsx lines 287-315) followed
by `physics.update(dt, inputs, worldData)` (line 321): stage the script
actuator writes into the intent buffer; a thrown exception, or a normal
return measured over budget (which raises the synthetic budget fault into
the same catch), sets status ERROR, records the message, and forces
`inputs.throttle = 0; inputs.brake = 1` — the catch handler does not touch
the steer slot; a normal return within budget accumulates the safety timer
and promotes RUNNING to SAFE once the timer exceeds 3 s. The returned
`VehicleInputs` are the ones applied to the physics step. The revisions
list is never written on either path. -/
def runTick (s : TickState) (currentSpeed : ℚ) (run : StepRun) (dt : ℚ) :
    TickState × VehicleInputs :=
  let written := run.calls.foldl (applyCall currentSpeed) ⟨0, 0, 0⟩
  match run.threw with
  | some msg =>
    ({ s with executionStatus := .ERROR, errorLog := some (errorMessage msg) },
     { written with throttle := 0, brake := 1 })
  | none =>
    if cpuBudgetMs < run.elapsedMs then
      ({ s with
          executionStatus := .ERROR,
          errorLog := some (errorMessage budgetErrorMsg) },
       { written with throttle := 0, brake := 1 })
    else
      let timer := s.safetyTimer + dt
      ({ s with
          safetyTimer := timer,
          executionStatus :=
            if 3 < timer ∧ s.executionStatus = .RUNNING then .SAFE
            else s.executionStatus },
       written)

/-- Observables of one frame of the `useFrame` loop with autonomy engaged. -/
structure FrameResult where
  state : TickState
  applied : VehicleInputs
  stepRan : Bool
  hasInit : Bool
  consoleErrors : List String
deriving DecidableEq, Repr

/-- One frame of the script-execution section of `useFrame` (Robot.tsx
lines 220-321) with `isPlaying` and `autonomyEnabled` true. When the status
is not ERROR: if the brain is not yet initialised, `executor.init(api)` runs
first — `BrainExecutor.init` wraps the script init function in try/catch
and only logs a thrown exception via `console.error` (src/unnamed/part_001
lines 139-145) — and the frame resets the safety timer (Robot.tsx line
285); then the step protocol of `runTick` runs. When the status is ERROR
the script is skipped and the untouched neutral buffer is applied to
physics. `initThrew` carries the message of the exception the script init
raises, if any. -/
def frame (s : TickState) (hasInit : Bool) (initThrew : Option String)
    (currentSpeed : ℚ) (run : StepRun) (dt : ℚ) : FrameResult :=
  if s.executionStatus = .ERROR then
    ⟨s, ⟨0, 0, 0⟩, false, hasInit, []⟩
  else
    let s1 := if hasInit then s else { s with safetyTimer := 0 }
    let errs := if hasInit then [] else initThrew.toList
    let r := runTick s1 currentSpeed run dt
    ⟨r.1, r.2, true, true, errs⟩

/-- Counterexample to C1 as stated: on a tick where the script stages
`setSteer(1)` (staging steer intent `-1` after clamping) and then throws,
the inputs applied to the physics step keep that steer value — they equal
neither the all-zero neutral buffer nor the stop intent
`{throttle 0, steer 0, brake 1}`, although the claim requires a neutral
steer regardless of the script writes. -/
theorem c1_neutral_claim_false :
    (runTick ⟨.RUNNING, none, "", [], 0⟩ 0
        ⟨[RobotCall.setSteer 1], some "boom", 0⟩ (1 / 60)).2.steer = -1
    ∧ (runTick ⟨.RUNNING, none, "", [], 0⟩ 0
        ⟨[RobotCall.setSteer 1], some "boom", 0⟩ (1 / 60)).2 ≠ ⟨0, 0, 0⟩
    ∧ (runTick ⟨.RUNNING, none, "", [], 0⟩ 0
        ⟨[RobotCall.setSteer 1], some "boom", 0⟩ (1 / 60)).2 ≠ ⟨0, 0, 1⟩ := by
  decide

/-- C1 (amended): on every faulting tick (step threw, or returned normally
over the 5 ms budget) the applied inputs have throttle forced to 0 and
brake forced to 1, but the steer slot carries whatever the script staged
before faulting (0 only if it never wrote steer). -/
theorem c1_failsafe_throttle_brake (s : TickState) (currentSpeed : ℚ)
    (run : StepRun) (dt : ℚ)
    (h : run.threw ≠ none ∨ cpuBudgetMs < run.elapsedMs) :
    (runTick s currentSpeed run dt).2.throttle = 0
    ∧ (runTick s currentSpeed run dt).2.brake = 1
    ∧ (runTick s currentSpeed run dt).2.steer =
        (run.calls.foldl (applyCall currentSpeed) ⟨0, 0, 0⟩).steer := by
  rcases run with ⟨calls, threw, elapsed⟩
  cases threw with
  | some msg => exact ⟨rfl, rfl, rfl⟩
  | none =>
    rcases h with h | h
    · simp at h
    · simp [runTick, if_pos h]

/-- Witness for the amended C1 at the faulting tick of the
counterexample. -/
theorem c1_failsafe_throttle_brake_witness :
    ((⟨[RobotCall.setSteer 1], some "boom", 0⟩ : StepRun).threw ≠ none
      ∨ cpuBudgetMs < (⟨[RobotCall.setSteer 1], some "boom", 0⟩ : StepRun).elapsedMs)
    ∧ ((runTick ⟨.RUNNING, none, "", [], 0⟩ 0
          ⟨[RobotCall.setSteer 1], some "boom", 0⟩ (1 / 60)).2.throttle = 0
      ∧ (runTick ⟨.RUNNING, none, "", [], 0⟩ 0
          ⟨[RobotCall.setSteer 1], some "boom", 0⟩ (1 / 60)).2.brake = 1
      ∧ (runTick ⟨.RUNNING, none, "", [], 0⟩ 0
          ⟨[RobotCall.setSteer 1], some "boom", 0⟩ (1 / 60)).2.steer =
          ((⟨[RobotCall.setSteer 1], some "boom", 0⟩ : StepRun).calls.foldl
            (applyCall 0) ⟨0, 0, 0⟩).steer) :=
  ⟨Or.inl (by simp),
   c1_failsafe_throttle_brake ⟨.RUNNING, none, "", [], 0⟩ 0
     ⟨[RobotCall.setSteer 1], some "boom", 0⟩ (1 / 60) (Or.inl (by simp))⟩

/-- C2 evaluated at the failing input: deploy a script, then run a tick
whose step returns normally after 6 ms against the 5 ms budget. The
supervisor does transition to ERROR and the recorded message is the budget
diagnostic, but the revision created by the deploy keeps tag UNKNOWN: no
code in the repository ever updates a revision tag, although the comment at
the `addRevision` call site (BrainLab.tsx line 42) says the Robot will. -/
theorem c2_budget_fault_observed :
    (frame (handleRun ⟨.IDLE, none, "", [], 0⟩ "mycode" "r1" 0) false none 0
        ⟨[], none, 6⟩ (1 / 60)).state.executionStatus = ExecStatus.ERROR
    ∧ (frame (handleRun ⟨.IDLE, none, "", [], 0⟩ "mycode" "r1" 0) false none 0
        ⟨[], none, 6⟩ (1 / 60)).state.errorLog = some budgetErrorMsg
    ∧ (frame (handleRun ⟨.IDLE, none, "", [], 0⟩ "mycode" "r1" 0) false none 0
        ⟨[], none, 6⟩ (1 / 60)).state.revisions.map Revision.status =
        [RevStatus.UNKNOWN] := by
  decide

/-- Counterexample to C3 as stated: a brain whose init throws on the first
tick after deploy does not move the system to ERROR — the exception is
swallowed inside `BrainExecutor.init`, the status stays RUNNING, and the
step call still runs on that very tick. -/
theorem c3_init_fault_not_error :
    (frame ⟨.RUNNING, none, "", [], 0⟩ false (some "init boom") 0
        ⟨[], none, 0⟩ (1 / 60)).stepRan = true
    ∧ (frame ⟨.RUNNING, none, "", [], 0⟩ false (some "init boom") 0
        ⟨[], none, 0⟩ (1 / 60)).state.executionStatus = ExecStatus.RUNNING
    ∧ (frame ⟨.RUNNING, none, "", [], 0⟩ false (some "init boom") 0
        ⟨[], none, 0⟩ (1 / 60)).state.executionStatus ≠ ExecStatus.ERROR
    ∧ (frame ⟨.RUNNING, none, "", [], 0⟩ false (some "init boom") 0
        ⟨[], none, 0⟩ (1 / 60)).consoleErrors = ["init boom"] := by
  decide

/-- C3 (amended): an exception thrown by the script init function is caught
and only logged to the console — on any non-ERROR frame the whole frame
result (post state, applied inputs, step execution) is identical to the
same frame with a non-throwing init, except for the logged message. -/
theorem c3_init_fault_swallowed (s : TickState) (msg : String)
    (currentSpeed : ℚ) (run : StepRun) (dt : ℚ)
    (h : s.executionStatus ≠ ExecStatus.ERROR) :
    frame s false (some msg) currentSpeed run dt =
      { frame s false none currentSpeed run dt with consoleErrors := [msg] } := by
  simp [frame, h]

/-- Witness for the amended C3 on a concrete RUNNING state. -/
theorem c3_init_fault_swallowed_witness :
    (⟨.RUNNING, none, "", [], 0⟩ : TickState).executionStatus ≠ ExecStatus.ERROR
    ∧ frame ⟨.RUNNING, none, "", [], 0⟩ false (some "boom2") 0
        ⟨[], none, 0⟩ (1 / 60) =
      { frame ⟨.RUNNING, none, "", [], 0⟩ false none 0
          ⟨[], none, 0⟩ (1 / 60) with consoleErrors := ["boom2"] } :=
  ⟨by decide,
   c3_init_fault_swallowed ⟨.RUNNING, none, "", [], 0⟩ "boom2" 0
     ⟨[], none, 0⟩ (1 / 60) (by decide)⟩

/-- Status-and-timer projection of one fault-free tick (no exception,
measured time within budget, actuator calls irrelevant), derived from
`runTick`: the safety-timer state machine of Robot.tsx lines 292-293. -/
def ffTick (p : ExecStatus × ℚ) (dt : ℚ) : ExecStatus × ℚ :=
  let r := runTick ⟨p.1, none, "", [], p.2⟩ 0 ⟨[], none, 0⟩ dt
  ((r.1).executionStatus, (r.1).safetyTimer)

/-- Closed form of `ffTick`: add `dt` to the timer, promote RUNNING to SAFE
exactly when the updated timer exceeds 3 s. -/
theorem ffTick_eq (p : ExecStatus × ℚ) (dt : ℚ) :
    ffTick p dt =
      (if 3 < p.2 + dt ∧ p.1 = ExecStatus.RUNNING then ExecStatus.SAFE
       else p.1,
       p.2 + dt) := by
  rcases p with ⟨st, t⟩
  norm_num [ffTick, runTick, cpuBudgetMs]

/-- All states visited by a run of fault-free ticks, the start included. -/
def trajectory (p : ExecStatus × ℚ) : List ℚ → List (ExecStatus × ℚ)
  | [] => [p]
  | dt :: rest => p :: trajectory (ffTick p dt) rest

/-- Number of adjacent RUNNING-to-SAFE transitions in a status trace. -/
def countRS : List ExecStatus → ℕ
  | a :: b :: rest =>
    (if a = ExecStatus.RUNNING ∧ b = ExecStatus.SAFE then 1 else 0)
      + countRS (b :: rest)
  | _ => 0

/-- A fault-free tick leaves any non-RUNNING status unchanged. -/
theorem ffTick_status_of_ne (p : ExecStatus × ℚ) (dt : ℚ)
    (h : p.1 ≠ ExecStatus.RUNNING) : (ffTick p dt).1 = p.1 := by
  rw [ffTick_eq]
  simp [h]

/-- A fault-free run started in a non-RUNNING status never changes it. -/
theorem foldl_ffTick_status (dts : List ℚ) (p : ExecStatus × ℚ)
    (h : p.1 ≠ ExecStatus.RUNNING) : (dts.foldl ffTick p).1 = p.1 := by
  induction dts generalizing p with
  | nil => rfl
  | cons dt rest ih =>
    rw [List.foldl_cons]
    have hq := ffTick_status_of_ne p dt h
    rw [ih (ffTick p dt) (by rw [hq]; exact h)]
    exact hq

/-- A fault-free run from RUNNING whose accumulated time passes the 3 s
mark (or from an already SAFE state) ends SAFE. -/
theorem foldl_ffTick_safe (dts : List ℚ) (p : ExecStatus × ℚ)
    (h : p.1 = ExecStatus.SAFE
      ∨ (p.1 = ExecStatus.RUNNING ∧ dts ≠ [] ∧ 3 < p.2 + dts.sum)) :
    (dts.foldl ffTick p).1 = ExecStatus.SAFE := by
  induction dts generalizing p with
  | nil =>
    rcases h with h | ⟨_, hne, _⟩
    · exact h
    · exact absurd rfl hne
  | cons dt rest ih =>
    rw [List.foldl_cons]
    rcases h with hsafe | ⟨hrun, _, hsum⟩
    · exact ih (ffTick p dt)
        (Or.inl (by rw [ffTick_status_of_ne p dt (by rw [hsafe]; simp)]
                    exact hsafe))
    · cases rest with
      | nil =>
        have h3 : 3 < p.2 + dt := by
          have := hsum
          simp at this
          linarith
        simp only [List.foldl_nil]
        rw [ffTick_eq]
        simp [h3, hrun]
      | cons d r =>
        by_cases hq : 3 < p.2 + dt
        · exact ih (ffTick p dt) (Or.inl (by rw [ffTick_eq]; simp [hq, hrun]))
        · refine ih (ffTick p dt) (Or.inr ⟨?_, by simp, ?_⟩)
          · rw [ffTick_eq]
            simp [hq, hrun]
          · rw [ffTick_eq]
            simp only
            have := hsum
            simp [List.sum_cons] at this ⊢
            linarith

/-- Counting lemma: a fault-free trace contains exactly one
RUNNING-to-SAFE transition when it starts RUNNING and ends SAFE, and none
otherwise. -/
theorem countRS_trajectory (dts : List ℚ) (p : ExecStatus × ℚ) :
    countRS ((trajectory p dts).map Prod.fst) =
      if p.1 = ExecStatus.RUNNING ∧ (dts.foldl ffTick p).1 = ExecStatus.SAFE
      then 1 else 0 := by
  induction dts generalizing p with
  | nil =>
    rcases p with ⟨st, t⟩
    cases st <;> simp [trajectory, countRS]
  | cons dt rest ih =>
    have hcons : (trajectory p (dt :: rest)).map Prod.fst
        = p.1 :: (trajectory (ffTick p dt) rest).map Prod.fst := rfl
    have hshape : (trajectory (ffTick p dt) rest).map Prod.fst
        = (ffTick p dt).1
            :: ((trajectory (ffTick p dt) rest).map Prod.fst).tail := by
      cases rest <;> rfl
    rw [List.foldl_cons, hcons, hshape]
    simp only [countRS]
    rw [← hshape, ih (ffTick p dt)]
    by_cases hp : p.1 = ExecStatus.RUNNING
    · by_cases hq : (ffTick p dt).1 = ExecStatus.SAFE
      · have hfinal : (rest.foldl ffTick (ffTick p dt)).1 = ExecStatus.SAFE :=
          (foldl_ffTick_status rest (ffTick p dt) (by rw [hq]; simp)).trans hq
        simp [hp, hq, hfinal]
      · by_cases hqr : (ffTick p dt).1 = ExecStatus.RUNNING
        · simp [hp, hq, hqr]
        · have hfinal := foldl_ffTick_status rest (ffTick p dt) hqr
          simp [hp, hq, hqr, hfinal]
    · have hq1 := ffTick_status_of_ne p dt hp
      have hfinal : (rest.foldl ffTick (ffTick p dt)).1 = p.1 := by
        rw [foldl_ffTick_status rest (ffTick p dt) (by rw [hq1]; exact hp), hq1]
      simp [hp, hq1, hfinal]

/-- Every adjacent pair of a fault-free trace is one `ffTick` step. -/
theorem trajectory_adjacent (P : (ExecStatus × ℚ) → (ExecStatus × ℚ) → Prop)
    (hP : ∀ p dt, P p (ffTick p dt)) :
    ∀ (dts : List ℚ) (p : ExecStatus × ℚ),
      ∀ pr ∈ (trajectory p dts).zip (trajectory p dts).tail, P pr.1 pr.2 := by
  intro dts
  induction dts with
  | nil => intro p pr hpr; simp [trajectory] at hpr
  | cons dt rest ih =>
    intro p pr hpr
    have hshape : trajectory (ffTick p dt) rest
        = (ffTick p dt) :: (trajectory (ffTick p dt) rest).tail := by
      cases rest <;> rfl
    rw [show trajectory p (dt :: rest)
        = p :: trajectory (ffTick p dt) rest from rfl, List.tail_cons,
      hshape, List.zip_cons_cons] at hpr
    rcases List.mem_cons.mp hpr with heq | hmem
    · subst heq
      exact hP p dt
    · exact ih (ffTick p dt) pr (by rw [hshape, List.tail_cons]; exact hmem)

/-- C8: in a fault-free run started in RUNNING with the safety timer reset,
whose tick durations accumulate past the 3 s threshold, the RUNNING to SAFE
promotion fires exactly once along the trace; and every transition into
SAFE happens from RUNNING with the accumulated fault-free time at that tick
already above 3 s — never earlier and never from another state. -/
theorem c8_safe_promotion_once (dts : List ℚ) (hsum : 3 < dts.sum) :
    countRS ((trajectory (ExecStatus.RUNNING, 0) dts).map Prod.fst) = 1
    ∧ ∀ pr ∈ (trajectory (ExecStatus.RUNNING, 0) dts).zip
          (trajectory (ExecStatus.RUNNING, 0) dts).tail,
        pr.2.1 = ExecStatus.SAFE → pr.1.1 ≠ ExecStatus.SAFE →
          pr.1.1 = ExecStatus.RUNNING ∧ 3 < pr.2.2 := by
  constructor
  · rw [countRS_trajectory]
    have hne : dts ≠ [] := by
      intro h
      rw [h] at hsum
      norm_num at hsum
    have hsafe := foldl_ffTick_safe dts (ExecStatus.RUNNING, 0)
      (Or.inr ⟨rfl, hne, by simpa using hsum⟩)
    simp [hsafe]
  · have hpoint : ∀ p dt,
        (ffTick p dt).1 = ExecStatus.SAFE → p.1 ≠ ExecStatus.SAFE →
          p.1 = ExecStatus.RUNNING ∧ 3 < (ffTick p dt).2 := by
      intro p dt h1 h2
      rw [ffTick_eq] at h1
      simp only at h1
      by_cases hc : 3 < p.2 + dt ∧ p.1 = ExecStatus.RUNNING
      · refine ⟨hc.2, ?_⟩
        rw [ffTick_eq]
        exact hc.1
      · rw [if_neg hc] at h1
        exact absurd h1 h2
    exact trajectory_adjacent
      (fun a b => b.1 = ExecStatus.SAFE → a.1 ≠ ExecStatus.SAFE →
        a.1 = ExecStatus.RUNNING ∧ 3 < b.2) hpoint dts (ExecStatus.RUNNING, 0)

/-- Witness for C8 on a run of four one-second fault-free ticks. -/
theorem c8_safe_promotion_once_witness :
    (3 : ℚ) < ([1, 1, 1, 1] : List ℚ).sum
    ∧ (countRS ((trajectory (ExecStatus.RUNNING, 0) [1, 1, 1, 1]).map
          Prod.fst) = 1
      ∧ ∀ pr ∈ (trajectory (ExecStatus.RUNNING, 0) [1, 1, 1, 1]).zip
            (trajectory (ExecStatus.RUNNING, 0) [1, 1, 1, 1]).tail,
          pr.2.1 = ExecStatus.SAFE → pr.1.1 ≠ ExecStatus.SAFE →
            pr.1.1 = ExecStatus.RUNNING ∧ 3 < pr.2.2) :=
  ⟨by decide, c8_safe_promotion_once [1, 1, 1, 1] (by decide)⟩

/-! ## Capability sinks: telemetry and debug drawing (Robot.tsx lines
266-282). JavaScript exceptions inside these arrow functions arise from
member access on a null or undefined argument; values are modelled over a
domain of primitive JS values (objects with throwing coercions and the
unrepresentable NaN are outside the model). A sink returning `.error`
raises that exception back into the calling script. -/

/-- A primitive JavaScript argument value. -/
inductive JsVal
  | num (q : ℚ)
  | str (s : String)
  | boolVal (b : Bool)
  | nullVal
  | undefVal
deriving DecidableEq, Repr

/-- JS object-property assignment `m[key] = v` on a string-keyed record,
as a functional map update. -/
def setKey (m : List (String × ℚ)) (k : String) (v : ℚ) :
    List (String × ℚ) :=
  (k, v) :: m.filter (fun kv => kv.1 != k)

/-- Store action `setCustomWatch` map update (src/store.ts line 264):
`{ ...state.customWatches, [key]: value }`. -/
def setKeyVal (m : List (String × JsVal)) (k : String) (v : JsVal) :
    List (String × JsVal) :=
  (k, v) :: m.filter (fun kv => kv.1 != k)

/-- Sink `api.telemetry.log` (Robot.tsx line 267): record the sample only when
`typeof value === "number"`, otherwise silently ignore; never raise. -/
def telemetryLog (frameLogs : List (String × ℚ)) (key : String)
    (value : JsVal) : Except String (List (String × ℚ)) :=
  match value with
  | .num q => .ok (setKey frameLogs key q)
  | _ => .ok frameLogs

/-- Sink `api.telemetry.watch` (Robot.tsx line 268): store the value as given
via `setCustomWatch`; never raise. -/
def telemetryWatch (watches : List (String × JsVal)) (key : String)
    (value : JsVal) : Except String (List (String × JsVal)) :=
  .ok (setKeyVal watches key value)

/-- The position argument a script passes to `api.debug.text`. -/
inductive PosArg
  | nullish
  | pt (x y z : ℚ)
deriving DecidableEq, Repr

/-- Message of the TypeError raised by a member access on null. -/
def typeErrorMsg : String := "TypeError: cannot read properties of null"

/-- Sink `api.debug.text` (Robot.tsx line 272): reads `p.x`, `p.y + 1`, `p.z` to
place the label; a null or undefined position argument raises a TypeError
that propagates into the script. -/
def debugText (pos : PosArg) (msg : String) :
    Except String ((ℚ × ℚ × ℚ) × String) :=
  match pos with
  | .nullish => .error typeErrorMsg
  | .pt x y z => .ok ((x, y + 1, z), msg)

/-- Sink `api.debug.path` (Robot.tsx lines 273-281): `points.map(...)` reading
each `p.x`, `p.z` and the terrain height oracle; a null or undefined points
argument raises a TypeError at the `.map` call. -/
def debugPath (getHeight : ℚ → ℚ → ℚ) (points : Option (List Point2)) :
    Except String (List (ℚ × ℚ × ℚ)) :=
  match points with
  | none => .error typeErrorMsg
  | some l => .ok (l.map (fun p => (p.x, getHeight p.x p.z + 1 / 2, p.z)))

/-- Counterexample to C9 as stated: passing null to `debug.path` or
`debug.text` raises a TypeError back into the script, so the debug sinks do
not hold for every argument value. -/
theorem c9_debug_sink_throws :
    debugPath (fun _ _ => 0) none = .error typeErrorMsg
    ∧ debugText .nullish "label" = .error typeErrorMsg :=
  ⟨rfl, rfl⟩

/-- C9 (amended): `telemetry.log` and `telemetry.watch` never raise for any
key and any primitive value (`log` silently drops non-numeric values), and
the debug sinks never raise when given non-null arguments; only a null or
undefined argument to `debug.text` / `debug.path` raises, and that
TypeError propagates to the script as a fault. -/
theorem c9_sinks_total_on_valid_args :
    (∀ logs key value, ∃ r, telemetryLog logs key value = .ok r)
    ∧ (∀ watches key value, ∃ r, telemetryWatch watches key value = .ok r)
    ∧ (∀ msg x y z, ∃ r, debugText (.pt x y z) msg = .ok r)
    ∧ (∀ h pts, ∃ r, debugPath h (some pts) = .ok r) := by
  refine ⟨fun logs key value => ?_, fun w k v => ⟨_, rfl⟩,
    fun m x y z => ⟨_, rfl⟩, fun h pts => ⟨_, rfl⟩⟩
  cases value <;> exact ⟨_, rfl⟩
